import Mathlib

/-!
Shallow embedding of the retrieval-and-provenance engine of the
Space Biology Knowledge Engine (Express backend `backend/server.js`
plus the client-side search of `src/pages/Results.tsx` and the
knowledge-graph builder of `src/lib/demoData.ts`).

JavaScript strings are Lean `String`s; `String.prototype.includes` is
an infix test on the character lists; `Math.random()` draws are passed
explicitly as function parameters; fallible code (out-of-bounds element
access on JS `undefined`) returns `Except`; floating-point scores are
modelled as rationals.
-/

namespace SpaceBio

/-- Character-list infix test, modelling JavaScript
`hay.includes(needle)` on the underlying character sequences. -/
def charsContain : List Char → List Char → Bool
  | needle, [] => needle.isEmpty
  | needle, c :: rest => needle.isPrefixOf (c :: rest) || charsContain needle rest

/-- `hay.includes(needle)` for JavaScript strings. -/
def strIncludes (hay needle : String) : Bool := charsContain needle.toList hay.toList

/-- JavaScript `s.toLowerCase()` (character-wise, on the underlying
character list so that it evaluates inside the kernel). -/
def lowerStr (s : String) : String := ⟨s.data.map Char.toLower⟩

/-- Splitting a character list on single spaces, JS `split(' ')` style:
consecutive separators yield empty fragments and the empty input yields
one empty fragment. -/
def splitSpaceAux : List Char → List (List Char)
  | [] => [[]]
  | c :: rest =>
    let r := splitSpaceAux rest
    if c = ' ' then [] :: r
    else
      match r with
      | t :: ts => (c :: t) :: ts
      | [] => [[c]]

/-- JavaScript `s.split(' ')`. -/
def jsSplitSpace (s : String) : List String := (splitSpaceAux s.data).map String.mk

/-- JavaScript `s.slice(0, n)`. -/
def strTake (s : String) (n : ℕ) : String := ⟨s.data.take n⟩

/-- A corpus document (`demo_items.json` record), with the fields the
retrieval engine reads. -/
structure Item where
  id : String
  title : String
  source : String
  year : Int
  organism : String
  mission : String
  assayType : String
  snippet : String
  entities : List String
  url : String
  ragSnippets : List String
deriving DecidableEq, Repr

/-- Query filter of `GET /api/search` (server.js lines 73-80): keep a
document when the whole lowercased query is a substring of the
lowercased title, of the lowercased snippet, or of some lowercased
entity label. -/
def serverQueryMatch (q : String) (item : Item) : Bool :=
  let queryLower := lowerStr q
  strIncludes (lowerStr item.title) queryLower ||
  strIncludes (lowerStr item.snippet) queryLower ||
  item.entities.any (fun e => strIncludes (lowerStr e) queryLower)

/-- The query-filtering step of `GET /api/search`: a no-op for the empty
query, otherwise `items.filter(...)`. -/
def serverSearchFilter (q : String) (items : List Item) : List Item :=
  if q = "" then items else items.filter (serverQueryMatch q)

/-- Query filter of `searchDemoItems` (Results.tsx lines 79-85): split
the lowercased query on single spaces and keep a document when some
resulting term is a substring of the lowercased title or of the
lowercased snippet (entity labels are not consulted). -/
def clientQueryMatch (q : String) (item : Item) : Bool :=
  let queryTerms := jsSplitSpace (lowerStr q)
  queryTerms.any (fun term =>
    strIncludes (lowerStr item.title) term || strIncludes (lowerStr item.snippet) term)

/-- The query-filtering step of `searchDemoItems`. -/
def clientSearchFilter (q : String) (items : List Item) : List Item :=
  items.filter (clientQueryMatch q)

/-- Modelled from the spec: the text-match predicate the specification
describes — some whitespace-split query term is, case-insensitively, a
substring of the title, the snippet, or at least one entity label. -/
def specTermMatch (q : String) (item : Item) : Bool :=
  (jsSplitSpace q).any (fun term =>
    !term.isEmpty &&
    (strIncludes (lowerStr item.title) (lowerStr term) ||
     strIncludes (lowerStr item.snippet) (lowerStr term) ||
     item.entities.any (fun e => strIncludes (lowerStr e) (lowerStr term))))

/-- A support / evidence span (`chunk_id`, `doc_id`, …, `score`). -/
structure Support where
  chunk_id : String
  doc_id : String
  source : String
  text : String
  url : String
  score : ℚ
deriving DecidableEq, Repr

/-- A synthesized quick answer. -/
structure Answer where
  text : String
  confidence : ℚ
  supports : List Support
deriving DecidableEq, Repr

/-- JavaScript `Math.round`: round half towards positive infinity. -/
def jsRound (x : ℚ) : ℤ := ⌊x + 1 / 2⌋

/-- `Math.round(x * 100) / 100`: rounding to two decimal places. -/
def round2 (x : ℚ) : ℚ := (jsRound (x * 100) : ℚ) / 100

/-- Mean of the scores of a support list (JS `reduce(...)/length`; an
empty list gives `0/0`, which is `0` in `ℚ` where JS produces `NaN`). -/
def meanScore (supports : List Support) : ℚ :=
  (supports.map Support.score).sum / supports.length

/-- `generateQuickAnswer(query, items)` (server.js lines 38-59).
`rand i` stands for the `Math.random()` draw used for the `i`-th
support's score.  The template string reads `supports[1].source`
unguarded, so a one-element `items` throws a `TypeError` in
JavaScript: that branch is the `Except.error` case. -/
def generateQuickAnswer (query : String) (items : List Item) (rand : ℕ → ℚ) :
    Except String (Option Answer) :=
  if items.length = 0 then .ok none else
  let supports := (items.take 3).enum.map (fun p =>
    ({ chunk_id := "c" ++ toString (p.1 + 1)
       doc_id := p.2.id
       source := p.2.source
       text := p.2.snippet
       url := p.2.url
       score := max (7 / 10) (rand p.1 * (3 / 10) + 7 / 10) } : Support))
  let confidence := meanScore supports
  match supports with
  | s0 :: s1 :: rest =>
    let tail := match rest with
      | s2 :: _ =>
        ("Additional support from " ++ s2.source ++ " ") ++
          ("[REF:" ++ s2.chunk_id ++ "]") ++ "."
      | [] => ""
    .ok (some
      { text := ("Based on available evidence, " ++ lowerStr query ++
            " shows significant effects across multiple studies. " ++ s0.source ++
            " reports key findings ") ++ ("[REF:" ++ s0.chunk_id ++ "]") ++
          (", while " ++ s1.source ++ " demonstrates related mechanisms ") ++
          ("[REF:" ++ s1.chunk_id ++ "]") ++ (". " ++ tail)
        confidence := round2 confidence
        supports := supports })
  | _ => .error "TypeError: Cannot read properties of undefined (reading source)"

/-- Dedup-insert: append a key unless already present. -/
def insKey (acc : List String) (x : String) : List String :=
  if acc.contains x then acc else acc ++ [x]

/-- JS `[...new Set(xs)]`: deduplicate keeping first occurrences. -/
def uniqueFirst (xs : List String) : List String := xs.foldl insKey []

/-- `item.ragSnippets?.[0] || item.snippet`: the first evidence snippet
unless it is missing or falsy (the empty string). -/
def firstRagSnippet (item : Item) : String :=
  let t := item.ragSnippets.headD ""
  if t = "" then item.snippet else t

/-- Result of `POST /api/compare` (the summary string's wording is
elided; the distinct-value lists feeding it are kept). -/
structure ComparisonResult where
  organisms : List String
  missions : List String
  assayTypes : List String
  confidence : ℚ
  supports : List Support
deriving DecidableEq, Repr

/-- `POST /api/compare` (server.js lines 330-362).  The guard checks the
length of the SUPPLIED id list; ids are then resolved against the
corpus with `seedData.find`, dropping unresolved ones (`filter(Boolean)`).
`rand i` is the `Math.random()` draw for the `i`-th support score. -/
def compare (seedData : List Item) (ids : List String) (rand : ℕ → ℚ) :
    Except String ComparisonResult :=
  if ids.length < 2 then .error "At least 2 items required for comparison" else
  let compareItems := ids.filterMap (fun id => seedData.find? (fun it => it.id = id))
  let supports := compareItems.enum.map (fun p =>
    ({ chunk_id := "c" ++ toString (p.1 + 1)
       doc_id := p.2.id
       source := p.2.source
       text := firstRagSnippet p.2
       url := p.2.url
       score := rand p.1 * (3 / 10) + 7 / 10 } : Support))
  .ok
    { organisms := uniqueFirst (compareItems.map Item.organism)
      missions := uniqueFirst (compareItems.map Item.mission)
      assayTypes := uniqueFirst (compareItems.map Item.assayType)
      confidence := round2 (meanScore supports)
      supports := supports }

/-- The quick-answer construction of `searchDemoItems` (Results.tsx
lines 137-154): always built, supports are one span per evidence
snippet of the top 3 filtered items, and the text is the top snippets
joined by spaces followed by the single literal marker
`[REF:multiple]`.  `rand i j` is the draw for the `j`-th snippet of the
`i`-th item; `crand` the draw for the confidence. -/
def clientQuickAnswer (filtered : List Item) (rand : ℕ → ℕ → ℚ) (crand : ℚ) : Answer :=
  let topItems := filtered.take 3
  let supports := topItems.enum.flatMap (fun p =>
    p.2.ragSnippets.enum.map (fun q =>
      ({ chunk_id := "c" ++ toString p.1 ++ toString q.1
         doc_id := p.2.id
         source := p.2.source
         text := q.2
         url := p.2.url
         score := 8 / 10 + rand p.1 q.1 * (1 / 10) } : Support)))
  { text := String.intercalate " " (topItems.map Item.snippet) ++ " [REF:multiple]"
    confidence := 8 / 10 + crand * (1 / 10)
    supports := supports }

/-- A knowledge-graph node.  Of the JS metadata map only the entity
mention counter is kept (`0` on non-entity nodes, whose metadata has no
such field; the layout coordinates and display metadata are elided). -/
structure KGNode where
  id : String
  type : String
  label : String
  mentions : ℕ
deriving DecidableEq, Repr

/-- A knowledge-graph edge; provenance keeps the originating document id. -/
structure KGEdge where
  source : String
  target : String
  relation : String
  provDocId : String
deriving DecidableEq, Repr

/-- JS `s.replace(/\s/g, '-').toLowerCase()`: every whitespace character
becomes a hyphen, then the result is lowercased. -/
def slug (s : String) : String :=
  lowerStr ⟨s.data.map (fun c => if c.isWhitespace then '-' else c)⟩

/-- `nodes.find(n => n.id === entityId)` followed by
`node.metadata.mentions += 1`: bump the mention counter of the FIRST
node carrying the given id (a no-op when none does). -/
def bumpMentions (nodes : List KGNode) (entityId : String) : List KGNode :=
  match nodes with
  | [] => []
  | n :: rest =>
    if n.id = entityId then { n with mentions := n.mentions + 1 } :: rest
    else n :: bumpMentions rest entityId

/-- Builder state of `buildKGFromItems`: the accumulated node and edge
lists plus the RAW-string key sets of the two dedup `Map`s (their
stored values are never read back, only `has` is consulted). -/
structure KGState where
  nodes : List KGNode
  edges : List KGEdge
  entityKeys : List String
  missionKeys : List String
deriving DecidableEq, Repr

/-- Processing of one entity occurrence inside `buildKGFromItems`
(demoData.ts lines 285-306): the dedup `Map` is keyed by the RAW entity
string while the node id uses the slug, and a `mentions` edge is pushed
for every occurrence. -/
def addEntity (docNodeId docId : String) (st : KGState) (entity : String) : KGState :=
  let entityId := "entity-" ++ slug entity
  let st1 :=
    if st.entityKeys.contains entity then
      { st with nodes := bumpMentions st.nodes entityId }
    else
      { st with
          nodes := st.nodes ++ [(⟨entityId, "entity", entity, 1⟩ : KGNode)]
          entityKeys := st.entityKeys ++ [entity] }
  { st1 with edges := st1.edges ++ [(⟨docNodeId, entityId, "mentions", docId⟩ : KGEdge)] }

/-- Document-node type: `item.source.includes('PMC') || ... ('ADS')`
picks `paper`, else `dataset` (case-sensitive `includes`). -/
def docType (item : Item) : String :=
  if strIncludes item.source "PMC" || strIncludes item.source "ADS"
  then "paper" else "dataset"

/-- Document-node id `type + '-' + item.id`. -/
def docNodeId (item : Item) : String := docType item ++ "-" ++ item.id

/-- Push the document node of an item. -/
def pushDocNode (st : KGState) (item : Item) : KGState :=
  { st with nodes := st.nodes ++ [(⟨docNodeId item, docType item, item.title, 0⟩ : KGNode)] }

/-- Dedup-push the mission node of an item; the dedup `Map` is keyed by
the RAW mission string while the node id uses the slug. -/
def pushMissionNode (st : KGState) (item : Item) : KGState :=
  if st.missionKeys.contains item.mission then st
  else
    { st with
        nodes := st.nodes ++
          [(⟨"mission-" ++ slug item.mission, "mission", item.mission, 0⟩ : KGNode)]
        missionKeys := st.missionKeys ++ [item.mission] }

/-- Push the `part_of_mission` edge of an item. -/
def pushMissionEdge (st : KGState) (item : Item) : KGState :=
  { st with
      edges := st.edges ++
        [(⟨docNodeId item, "mission-" ++ slug item.mission, "part_of_mission",
           item.id⟩ : KGEdge)] }

/-- Processing of one item inside `buildKGFromItems` (demoData.ts lines
253-307): push the document node, dedup-push the mission node (keyed by
the RAW mission string), push the `part_of_mission` edge, then fold
over the entity list. -/
def addItem (st : KGState) (item : Item) : KGState :=
  item.entities.foldl (addEntity (docNodeId item) item.id)
    (pushMissionEdge (pushMissionNode (pushDocNode st item) item) item)

/-- `buildKGFromItems(items)` (demoData.ts lines 247-309). -/
def buildKGFromItems (items : List Item) : KGState :=
  items.foldl addItem ⟨[], [], [], []⟩

/-- Paper node of the mock graph of `GET /api/kg` (server.js lines
262-273); the random layout coordinates are elided. -/
def serverPaperNode (item : Item) : KGNode :=
  ⟨item.id, "paper", strTake item.title 40 ++ "...", 0⟩

/-- The six fixed entity nodes of `GET /api/kg` (server.js lines
276-284); `'entity-' + entity.replace(' ', '-')` replaces only the
first space and does not lowercase. -/
def serverEntityNodes : List KGNode :=
  [⟨"entity-microgravity", "entity", "microgravity", 0⟩,
   ⟨"entity-bone-loss", "entity", "bone loss", 0⟩,
   ⟨"entity-transcriptomics", "entity", "transcriptomics", 0⟩,
   ⟨"entity-muscle-atrophy", "entity", "muscle atrophy", 0⟩,
   ⟨"entity-ISS", "entity", "ISS", 0⟩,
   ⟨"entity-mice", "entity", "mice", 0⟩]

/-- Node list of `GET /api/kg`: the first 20 corpus items as paper
nodes plus the fixed entity nodes.  Independent of any random draw. -/
def serverKGNodes (seedData : List Item) : List KGNode :=
  (seedData.take 20).map serverPaperNode ++ serverEntityNodes

/-- Edge list of `GET /api/kg` (server.js lines 289-304): each paper
points to the first `2 + Math.floor(Math.random() * 2)` entity nodes,
so `coin i` records the `i`-th paper's draw (`false` ↦ 2, `true` ↦ 3
mentioned entities). -/
def serverKGEdges (seedData : List Item) (coin : ℕ → Bool) : List KGEdge :=
  ((seedData.take 20).map serverPaperNode).enum.flatMap (fun p =>
    (serverEntityNodes.take (2 + if coin p.1 then 1 else 0)).map (fun e =>
      ⟨p.2.id, e.id, "mentions", p.2.id⟩))

/-- Membership in the `connectedNodeIds` set of `GET /api/kg` (server.js
lines 310-315): the focus id itself plus every id joined to it by one
edge in either direction. -/
def inConnected (nodeId : String) (edges : List KGEdge) (x : String) : Bool :=
  x = nodeId ||
  edges.any (fun e => (e.source = nodeId && e.target = x) ||
                      (e.target = nodeId && e.source = x))

/-- The neighborhood filter of `GET /api/kg` (server.js lines 306-321):
keep the nodes whose id is connected to the focus and the edges both of
whose endpoints are. -/
def kgNeighborhood (nodeId : String) (nodes : List KGNode) (edges : List KGEdge) :
    List KGNode × List KGEdge :=
  (nodes.filter (fun n => inConnected nodeId edges n.id),
   edges.filter (fun e => inConnected nodeId edges e.source &&
                          inConnected nodeId edges e.target))

/-- Stable insertion into a list sorted by strictly descending score,
placing the new element before the first strictly smaller score. -/
def insertDesc (x : ℚ × Item) : List (ℚ × Item) → List (ℚ × Item)
  | [] => [x]
  | y :: rest => if y.1 < x.1 then x :: y :: rest else y :: insertDesc x rest

/-- JS `sort((a, b) => b.score - a.score)`: a stable sort by descending
score (V8's sort is stable), modelled as insertion sort. -/
def sortByScoreDesc (l : List (ℚ × Item)) : List (ℚ × Item) := l.foldr insertDesc []

/-- The scoring, ranking and truncation steps of `GET /api/search`
(server.js lines 117-124): each surviving item gets score
`Math.max(0.5, Math.random() * 0.5 + 0.5)` (`rand i` is the `i`-th
draw) and the list is sorted by descending score and sliced to
`limit`. -/
def serverSearchItems (seedData : List Item) (q : String) (rand : ℕ → ℚ)
    (limit : ℕ) : List (ℚ × Item) :=
  let items := serverSearchFilter q seedData
  let scored := items.enum.map (fun p => (max (1 / 2) (rand p.1 * (1 / 2) + 1 / 2), p.2))
  (sortByScoreDesc scored).take limit

/-- The `quick_answer` field of the `GET /api/search` response (server.js
line 127) when no source, facet or node filter is active: `null` for an
empty query, otherwise `generateQuickAnswer` over the ranked items. -/
def serverSearchQuickAnswer (seedData : List Item) (q : String)
    (rand arand : ℕ → ℚ) (limit : ℕ) : Except String (Option Answer) :=
  if q = "" then .ok none
  else generateQuickAnswer q ((serverSearchItems seedData q rand limit).map Prod.snd) arand

/-- A concrete document used by counterexamples and witnesses. -/
def mkItem (id title snippet mission : String) (entities : List String) : Item :=
  { id := id, title := title, source := "OSDR/GeneLab", year := 2020
    organism := "Mus musculus", mission := mission, assayType := "RNA-seq"
    snippet := snippet, entities := entities, url := "https://example.org"
    ragSnippets := [] }

/-- `searchDemoItems` of Results.tsx with default ("all") facet filters
and no source filter: the query-filtering step followed by the
always-built quick answer. -/
def searchDemoItems (q : String) (allItems : List Item) (rand : ℕ → ℕ → ℚ)
    (crand : ℚ) : List Item × Answer :=
  let filtered := clientSearchFilter q allItems
  (filtered, clientQuickAnswer filtered rand crand)

/-- A concrete document with evidence snippets. -/
def mkItemR (id title snippet mission : String) (entities rag : List String) : Item :=
  { mkItem id title snippet mission entities with ragSnippets := rag }

/-- Node-identity determinism: a mission or entity node's id is the
deterministic function `type ++ "-" ++ slug(label)` of its type and
(normalized) display label. -/
def nodeIdCoherent (n : KGNode) : Prop :=
  (n.type = "mission" → n.id = "mission-" ++ slug n.label) ∧
  (n.type = "entity" → n.id = "entity-" ++ slug n.label)

/-- Splitting a character list on whitespace, JS-split style (empty
fragments kept). -/
def splitWSAux : List Char → List (List Char)
  | [] => [[]]
  | c :: rest =>
    let r := splitWSAux rest
    if c.isWhitespace then [] :: r
    else
      match r with
      | t :: ts => (c :: t) :: ts
      | [] => [[c]]

/-- Modelled from the spec: label normalization — lowercase, trim, and
collapse internal whitespace runs to single spaces. -/
def normalizeLabel (s : String) : String :=
  String.intercalate " "
    (((splitWSAux s.data).filter (fun w => !w.isEmpty)).map
      (fun w => String.mk (w.map Char.toLower)))

/-- Modelled from the spec: the node count the specification predicts
for `build(D)` — `|D|` plus the number of distinct mission values plus
the number of distinct NORMALIZED entity labels. -/
def specNodeCount (D : List Item) : ℕ :=
  D.length + (uniqueFirst (D.map Item.mission)).length +
    (uniqueFirst ((D.flatMap Item.entities).map normalizeLabel)).length

/-- Number of `mentions` edges targeting a node id: the mentions
in-degree of the claim. -/
def mentionsInDegree (edges : List KGEdge) (nid : String) : ℕ :=
  (edges.filter (fun e => e.relation = "mentions" && e.target = nid)).length

/-- Total of the mention counters over the nodes carrying an id. -/
def mentionsSum (nodes : List KGNode) (nid : String) : ℕ :=
  ((nodes.filter (fun n => n.id = nid)).map KGNode.mentions).sum

/-- Builder invariant: every raw entity key seen so far has a node
carrying its entity id. -/
def entityKeysCovered (st : KGState) : Prop :=
  ∀ k ∈ st.entityKeys, ("entity-" ++ slug k) ∈ st.nodes.map KGNode.id

/-- Builder invariant: for every node id, the mention counters of the
nodes carrying it add up to its mentions in-degree. -/
def mentionsBalanced (st : KGState) : Prop :=
  ∀ nid, mentionsSum st.nodes nid = mentionsInDegree st.edges nid

/-! ## Helper lemmas -/

theorem charsContain_iff (n h : List Char) : charsContain n h = true ↔ n <:+: h := by
  induction h with
  | nil =>
    simp [charsContain, List.isEmpty_iff, List.infix_nil]
  | cons c rest ih =>
    simp [charsContain, List.infix_cons_iff, ih, List.isPrefixOf_iff_prefix]

theorem strIncludes_iff (hay needle : String) :
    strIncludes hay needle = true ↔ needle.toList <:+: hay.toList := by
  simpa [strIncludes] using charsContain_iff needle.toList hay.toList

theorem strIncludes_refl (s : String) : strIncludes s s = true :=
  (strIncludes_iff s s).mpr (List.infix_refl _)

theorem strIncludes_append_left (a b n : String) (h : strIncludes a n = true) :
    strIncludes (a ++ b) n = true := by
  rw [strIncludes_iff] at h ⊢
  exact h.trans (List.prefix_append a.toList b.toList).isInfix

theorem strIncludes_append_right (a b n : String) (h : strIncludes b n = true) :
    strIncludes (a ++ b) n = true := by
  rw [strIncludes_iff] at h ⊢
  exact h.trans (List.suffix_append a.toList b.toList).isInfix

theorem map_doc_id_enum_map (l : List Item) (mk : ℕ × Item → Support)
    (hmk : ∀ p, (mk p).doc_id = p.2.id) :
    (l.enum.map mk).map Support.doc_id = l.map Item.id := by
  rw [List.map_map]
  have h1 : (Support.doc_id ∘ mk) = (Item.id ∘ Prod.snd) := funext fun p => hmk p
  rw [h1, ← List.map_map, List.enum_map_snd]

theorem inConnected_iff (nodeId : String) (edges : List KGEdge) (x : String) :
    inConnected nodeId edges x = true ↔
      x = nodeId ∨ ∃ e ∈ edges, (e.source = nodeId ∧ e.target = x) ∨
        (e.target = nodeId ∧ e.source = x) := by
  simp [inConnected, List.any_eq_true]


/-! ## C1: search text-match -/

/-- C1 counterexample: the claim's term-wise OR match disagrees with
both implementations.  The server filter tests the WHOLE query string:
for query "bone zzz" the term "bone" occurs in the title "bone loss",
so the claim keeps the document, but the server filter drops it.  The
client filter never consults entity labels: for query "iss" the term
occurs in the entity label "ISS", so the claim keeps the document, but
the client filter drops it. -/
theorem c1_counterexample :
    (specTermMatch "bone zzz" (mkItem "d1" "bone loss" "" "M1" []) = true ∧
     serverQueryMatch "bone zzz" (mkItem "d1" "bone loss" "" "M1" []) = false) ∧
    (specTermMatch "iss" (mkItem "d2" "x" "y" "M1" ["ISS"]) = true ∧
     clientQueryMatch "iss" (mkItem "d2" "x" "y" "M1" ["ISS"]) = false) := by
  decide


/-- C1 (amended): the server-side search keeps a document iff the
ENTIRE lowercased query is a substring of the lowercased title, of the
lowercased snippet, or of some lowercased entity label (no term
splitting); the client-side search keeps a document iff some fragment
of the lowercased query split on single spaces is a substring of the
lowercased title or snippet (entity labels are not consulted).  OR
across fields still holds, term-wise matching only on the client, and
the entity field only on the server. -/
theorem c1_search_text_match (q : String) (items : List Item) (item : Item)
    (hq : q ≠ "") :
    (item ∈ serverSearchFilter q items ↔
      item ∈ items ∧
        ((lowerStr q).toList <:+: (lowerStr item.title).toList ∨
         (lowerStr q).toList <:+: (lowerStr item.snippet).toList ∨
         ∃ e ∈ item.entities, (lowerStr q).toList <:+: (lowerStr e).toList)) ∧
    (item ∈ clientSearchFilter q items ↔
      item ∈ items ∧
        ∃ t ∈ jsSplitSpace (lowerStr q),
          (t.toList <:+: (lowerStr item.title).toList ∨
           t.toList <:+: (lowerStr item.snippet).toList)) := by
  constructor
  · rw [serverSearchFilter, if_neg hq]
    simp [List.mem_filter, serverQueryMatch, strIncludes_iff, List.any_eq_true, or_assoc]
  · simp [clientSearchFilter, List.mem_filter, clientQueryMatch, strIncludes_iff,
      List.any_eq_true]

/-- Witness for C1: the characterization applied to the one-document
corpus `[mkItem "d1" "bone loss" "" "M1" []]` and the query "bone". -/
theorem c1_search_text_match_witness :
    ("bone" : String) ≠ "" ∧
    ((mkItem "d1" "bone loss" "" "M1" [] ∈
        serverSearchFilter "bone" [mkItem "d1" "bone loss" "" "M1" []] ↔
      mkItem "d1" "bone loss" "" "M1" [] ∈ [mkItem "d1" "bone loss" "" "M1" []] ∧
        ((lowerStr "bone").toList <:+: (lowerStr (mkItem "d1" "bone loss" "" "M1" []).title).toList ∨
         (lowerStr "bone").toList <:+: (lowerStr (mkItem "d1" "bone loss" "" "M1" []).snippet).toList ∨
         ∃ e ∈ (mkItem "d1" "bone loss" "" "M1" []).entities,
           (lowerStr "bone").toList <:+: (lowerStr e).toList)) ∧
     (mkItem "d1" "bone loss" "" "M1" [] ∈
        clientSearchFilter "bone" [mkItem "d1" "bone loss" "" "M1" []] ↔
      mkItem "d1" "bone loss" "" "M1" [] ∈ [mkItem "d1" "bone loss" "" "M1" []] ∧
        ∃ t ∈ jsSplitSpace (lowerStr "bone"),
          (t.toList <:+: (lowerStr (mkItem "d1" "bone loss" "" "M1" []).title).toList ∨
           t.toList <:+: (lowerStr (mkItem "d1" "bone loss" "" "M1" []).snippet).toList))) :=
  ⟨by decide,
   c1_search_text_match "bone" [mkItem "d1" "bone loss" "" "M1" []]
     (mkItem "d1" "bone loss" "" "M1" []) (by decide)⟩


/-! ## C2: compare and InsufficientItems -/

/-- C2 counterexample: two supplied ids, neither of which resolves
against the corpus, do NOT make `compare` fail — the guard counts the
supplied ids, not the resolved ones.  Here the corpus knows only "d1",
both supplied ids are unknown (0 resolve), yet `compare` returns a
result. -/
theorem c2_counterexample :
    (compare [mkItem "d1" "t" "s" "M1" []] ["x", "y"] (fun _ => 0)).isOk = true ∧
    (["x", "y"].filterMap
      (fun id => [mkItem "d1" "t" "s" "M1" []].find? (fun it => it.id = id))).length = 0 := by
  decide

/-- C2 (amended): `compare` fails with `InsufficientItems` exactly when
the SUPPLIED id list has fewer than 2 entries, regardless of how many
resolve.  In particular `compare([])` and `compare([x])` fail, and any
list of at least 2 supplied ids — including one where no id resolves —
returns a `ComparisonResult`. -/
theorem c2_compare_insufficient (seedData : List Item) (ids : List String)
    (rand : ℕ → ℚ) :
    (∃ msg, compare seedData ids rand = .error msg) ↔ ids.length < 2 := by
  unfold compare
  by_cases h : ids.length < 2 <;> simp [h]


/-! ## C10: partiality of generateQuickAnswer -/

/-- C10: `generateQuickAnswer` reads `supports[1]` unguarded while
guarding only `supports[2]`: with at least 2 items it returns a
well-formed answer; with exactly 1 item the index-1 access is out of
bounds (the JS `TypeError` branch); and that error branch is reachable
through the public search endpoint — a query matching exactly one
corpus document makes the whole search response fail. -/
theorem c10_generateQuickAnswer_partiality (q : String) (items : List Item)
    (rand : ℕ → ℚ) :
    (2 ≤ items.length → ∃ a, generateQuickAnswer q items rand = .ok (some a)) ∧
    (items.length = 1 → ∃ msg, generateQuickAnswer q items rand = .error msg) ∧
    (serverSearchQuickAnswer [mkItem "d1" "bone loss" "" "M1" []] "bone"
        (fun _ => 0) (fun _ => 0) 20).isOk = false := by
  refine ⟨?_, ?_, by decide⟩
  · intro h
    match items, h with
    | a :: b :: t, _ => exact ⟨_, rfl⟩
  · intro h
    match items, h with
    | [a], _ => exact ⟨_, rfl⟩

/-- Witness for C10: the partiality statement applied to a two-item
list and, separately, the error on a one-item list. -/
theorem c10_generateQuickAnswer_partiality_witness :
    (∃ a, generateQuickAnswer "q" [mkItem "d1" "t" "s" "M1" [], mkItem "d2" "t" "s" "M1" []]
        (fun _ => 0) = .ok (some a)) ∧
    (∃ msg, generateQuickAnswer "q" [mkItem "d1" "t" "s" "M1" []] (fun _ => 0) = .error msg) :=
  ⟨((c10_generateQuickAnswer_partiality "q"
      [mkItem "d1" "t" "s" "M1" [], mkItem "d2" "t" "s" "M1" []] (fun _ => 0)).1 (by decide)),
   ((c10_generateQuickAnswer_partiality "q"
      [mkItem "d1" "t" "s" "M1" []] (fun _ => 0)).2.1 (by decide))⟩


/-! ## C5: inline citation markers -/

/-- C5 counterexample.  (i) With an empty ranked list the server
synthesizer returns `null` (absent), not the literal fallback string
"No evidence found in provided passages." — that string exists only in
LLM prompt templates, not in the synthesis code.  (ii) With a
non-empty ranked list of exactly one document, no answer text is
produced at all: the unguarded `supports[1]` access throws.  (iii) The
client-side synthesizer produces a support whose `[REF:c00]` marker
never appears in the text — the text ends with the single aggregate
marker `[REF:multiple]`. -/
theorem c5_counterexample :
    generateQuickAnswer "q" [] (fun _ => 0) = .ok none ∧
    (generateQuickAnswer "q" [mkItem "d1" "t" "sn" "M1" []] (fun _ => 0)).isOk = false ∧
    (searchDemoItems "bone" [mkItemR "d1" "bone loss" "sn" "M1" [] ["ev1"]]
        (fun _ _ => 0) 0).2.supports.map Support.chunk_id = ["c00"] ∧
    strIncludes (searchDemoItems "bone" [mkItemR "d1" "bone loss" "sn" "M1" [] ["ev1"]]
        (fun _ _ => 0) 0).2.text "[REF:c00]" = false ∧
    (searchDemoItems "bone" [mkItemR "d1" "bone loss" "sn" "M1" [] ["ev1"]]
        (fun _ _ => 0) 0).2.text = "sn [REF:multiple]" := by
  exact ⟨rfl, by decide, by decide, by decide, by decide⟩

/-- C5 (amended): for every ranked list with at least TWO documents the
server-side synthesized answer exists and its text contains at least
one inline `[REF:<chunk id>]` marker for each support; with an empty
list the answer is absent (`null`) rather than a fallback string, and
with exactly one ranked document the synthesis fails on an
out-of-bounds access. -/
theorem c5_answer_markers (q : String) (items : List Item) (rand : ℕ → ℚ)
    (h : 2 ≤ items.length) :
    ∃ a, generateQuickAnswer q items rand = .ok (some a) ∧ a.supports ≠ [] ∧
      ∀ s ∈ a.supports, strIncludes a.text ("[REF:" ++ s.chunk_id ++ "]") = true := by
  match items, h with
  | a :: b :: t, _ =>
    cases t with
    | nil =>
      refine ⟨_, rfl, List.cons_ne_nil _ _, ?_⟩
      intro s hs
      cases hs with
      | head =>
        exact strIncludes_append_left _ _ _ (strIncludes_append_left _ _ _
          (strIncludes_append_left _ _ _ (strIncludes_append_right _ _ _
            (strIncludes_refl _))))
      | tail _ hs1 =>
        cases hs1 with
        | head =>
          exact strIncludes_append_left _ _ _ (strIncludes_append_right _ _ _
            (strIncludes_refl _))
        | tail _ hs2 => cases hs2
    | cons c t2 =>
      refine ⟨_, rfl, List.cons_ne_nil _ _, ?_⟩
      intro s hs
      cases hs with
      | head =>
        exact strIncludes_append_left _ _ _ (strIncludes_append_left _ _ _
          (strIncludes_append_left _ _ _ (strIncludes_append_right _ _ _
            (strIncludes_refl _))))
      | tail _ hs1 =>
        cases hs1 with
        | head =>
          exact strIncludes_append_left _ _ _ (strIncludes_append_right _ _ _
            (strIncludes_refl _))
        | tail _ hs2 =>
          cases hs2 with
          | head =>
            exact strIncludes_append_right _ _ _ (strIncludes_append_right _ _ _
              (strIncludes_append_left _ _ _ (strIncludes_append_right _ _ _
                (strIncludes_refl _))))
          | tail _ hs3 => cases hs3

/-- Witness for C5: the marker property applied to a concrete
two-document ranked list. -/
theorem c5_answer_markers_witness :
    ∃ a, generateQuickAnswer "Q" [mkItem "d1" "t" "sn" "M1" [], mkItem "d2" "u" "sm" "M1" []]
        (fun _ => 0) = .ok (some a) ∧ a.supports ≠ [] ∧
      ∀ s ∈ a.supports, strIncludes a.text ("[REF:" ++ s.chunk_id ++ "]") = true :=
  c5_answer_markers "Q" [mkItem "d1" "t" "sn" "M1" [], mkItem "d2" "u" "sm" "M1" []]
    (fun _ => 0) (by decide)

/-! ## C6: answer presence and support lists -/

/-- C6 counterexample: the client-side synthesizer is NOT absent on an
empty ranked list — `searchDemoItems` always builds a quick answer, and
for a query matching no document that answer carries an EMPTY support
list (and the bare text " [REF:multiple]"). -/
theorem c6_counterexample :
    clientSearchFilter "zzz" [mkItem "d1" "bone loss" "sn" "M1" []] = [] ∧
    (searchDemoItems "zzz" [mkItem "d1" "bone loss" "sn" "M1" []]
        (fun _ _ => 0) 0).2.supports = [] ∧
    (searchDemoItems "zzz" [mkItem "d1" "bone loss" "sn" "M1" []]
        (fun _ _ => 0) 0).2.text = " [REF:multiple]" := by
  decide

/-- C6 (amended): the SERVER-side synthesizer yields an absent answer
exactly when the ranked list is empty, and every answer it produces
cites the top `min(3, n)` ranked documents — a non-empty support list.
The CLIENT-side synthesizer instead always produces an answer object;
on an empty ranked list its support list is empty. -/
theorem c6_answer_presence (q : String) (items : List Item) (rand : ℕ → ℚ)
    (rand2 : ℕ → ℕ → ℚ) (crand : ℚ) :
    (generateQuickAnswer q items rand = .ok none ↔ items = []) ∧
    (∀ a, generateQuickAnswer q items rand = .ok (some a) →
      a.supports.map Support.doc_id = (items.take 3).map Item.id ∧ a.supports ≠ []) ∧
    (clientQuickAnswer [] rand2 crand).supports = [] := by
  refine ⟨?_, ?_, rfl⟩
  · cases items with
    | nil => exact ⟨fun _ => rfl, fun _ => rfl⟩
    | cons a t =>
      cases t with
      | nil =>
        exact ⟨fun hh => Except.noConfusion hh, fun hh => List.noConfusion hh⟩
      | cons b t2 =>
        constructor
        · intro hh
          injection hh with hh'
          exact Option.noConfusion hh'
        · intro hh
          exact List.noConfusion hh
  · intro a ha
    cases items with
    | nil =>
      injection ha with ha'
      exact Option.noConfusion ha'
    | cons x t =>
      cases t with
      | nil => exact Except.noConfusion ha
      | cons y t2 =>
        injection ha with ha'
        injection ha' with ha2
        subst ha2
        exact ⟨map_doc_id_enum_map _ _ (fun p => rfl), List.cons_ne_nil _ _⟩

/-- Witness for C6: the support/doc-id correspondence at a concrete
two-document ranked list. -/
theorem c6_answer_presence_witness :
    ∃ a, generateQuickAnswer "q" [mkItem "d1" "t" "sn" "M1" [], mkItem "d2" "u" "sm" "M1" []]
        (fun _ => 0) = .ok (some a) ∧
      a.supports.map Support.doc_id = ["d1", "d2"] ∧ a.supports ≠ [] := by
  obtain ⟨a, ha⟩ : ∃ a, generateQuickAnswer "q"
      [mkItem "d1" "t" "sn" "M1" [], mkItem "d2" "u" "sm" "M1" []]
      (fun _ => 0) = .ok (some a) := ⟨_, rfl⟩
  have h2 := (c6_answer_presence "q"
      [mkItem "d1" "t" "sn" "M1" [], mkItem "d2" "u" "sm" "M1" []]
      (fun _ => 0) (fun _ _ => 0) 0).2.1 a ha
  refine ⟨a, ha, ?_, h2.2⟩
  rw [h2.1]; decide

/-! ## C7: confidence as rounded mean of support scores -/

/-- C7: every produced quick answer and every produced comparison
result carries `confidence = round2(mean of its support scores)`, and
the comparison's support list cites exactly the resolved documents'
ids, in order. -/
theorem c7_confidence_mean (q : String) (items : List Item) (seedData : List Item)
    (ids : List String) (rand rand2 : ℕ → ℚ) :
    (∀ a, generateQuickAnswer q items rand = .ok (some a) →
        a.confidence = round2 (meanScore a.supports)) ∧
    (∀ r, compare seedData ids rand2 = .ok r →
        r.confidence = round2 (meanScore r.supports) ∧
        r.supports.map Support.doc_id =
          (ids.filterMap (fun i => seedData.find? (fun it => it.id = i))).map Item.id) := by
  constructor
  · intro a ha
    cases items with
    | nil =>
      injection ha with ha'
      exact Option.noConfusion ha'
    | cons x t =>
      cases t with
      | nil => exact Except.noConfusion ha
      | cons y t2 =>
        injection ha with ha'
        injection ha' with ha2
        subst ha2
        rfl
  · intro r hr
    unfold compare at hr
    split at hr
    · exact Except.noConfusion hr
    · injection hr with hr'
      subst hr'
      exact ⟨rfl, map_doc_id_enum_map _ _ (fun p => rfl)⟩

/-- Witness for C7: the confidence formula and the support/doc-id
correspondence of a concrete comparison of two resolved documents. -/
theorem c7_confidence_mean_witness :
    ∃ r, compare [mkItem "d1" "t" "sn" "M1" [], mkItem "d2" "u" "sm" "M1" []]
        ["d1", "d2"] (fun _ => 0) = .ok r ∧
      r.confidence = round2 (meanScore r.supports) ∧
      r.supports.map Support.doc_id = ["d1", "d2"] := by
  obtain ⟨r, hr⟩ : ∃ r, compare [mkItem "d1" "t" "sn" "M1" [], mkItem "d2" "u" "sm" "M1" []]
      ["d1", "d2"] (fun _ => 0) = .ok r := ⟨_, rfl⟩
  have h2 := (c7_confidence_mean "q" [] [mkItem "d1" "t" "sn" "M1" [], mkItem "d2" "u" "sm" "M1" []]
      ["d1", "d2"] (fun _ => 0) (fun _ => 0)).2 r hr
  refine ⟨r, hr, h2.1, ?_⟩
  rw [h2.2]; decide


/-! ## C8: one-hop neighborhood -/

/-- C8: for a focus id occurring in the graph, the neighborhood filter
returns the focus node, exactly the nodes joined to the focus by a
single edge in either direction (so nothing at graph distance greater
than 1), and exactly the edges both of whose endpoints lie in the
resulting node set (given that every edge endpoint names an existing
node, which holds for every graph the endpoint builds). -/
theorem c8_neighborhood (nodeId : String) (nodes : List KGNode) (edges : List KGEdge)
    (nx : KGNode) (hx : nx ∈ nodes) (hid : nx.id = nodeId)
    (hwf : ∀ e ∈ edges, (∃ n ∈ nodes, n.id = e.source) ∧ ∃ n ∈ nodes, n.id = e.target) :
    nx ∈ (kgNeighborhood nodeId nodes edges).1 ∧
    (∀ n, n ∈ (kgNeighborhood nodeId nodes edges).1 ↔
      n ∈ nodes ∧ (n.id = nodeId ∨ ∃ e ∈ edges,
        (e.source = nodeId ∧ e.target = n.id) ∨ (e.target = nodeId ∧ e.source = n.id))) ∧
    (∀ e, e ∈ (kgNeighborhood nodeId nodes edges).2 ↔
      e ∈ edges ∧ (∃ n ∈ (kgNeighborhood nodeId nodes edges).1, n.id = e.source) ∧
        ∃ n ∈ (kgNeighborhood nodeId nodes edges).1, n.id = e.target) := by
  refine ⟨List.mem_filter.mpr ⟨hx, (inConnected_iff nodeId edges nx.id).mpr (Or.inl hid)⟩,
    ?_, ?_⟩
  · intro n
    rw [kgNeighborhood, List.mem_filter, inConnected_iff]
  · intro e
    constructor
    · intro he
      have he2 := List.mem_filter.mp he
      have hb := he2.2
      rw [Bool.and_eq_true] at hb
      obtain ⟨⟨ns, hns, hnsid⟩, ⟨nt, hnt, hntid⟩⟩ := hwf e he2.1
      refine ⟨he2.1,
        ⟨ns, List.mem_filter.mpr ⟨hns, by rw [hnsid]; exact hb.1⟩, hnsid⟩,
        ⟨nt, List.mem_filter.mpr ⟨hnt, by rw [hntid]; exact hb.2⟩, hntid⟩⟩
    · rintro ⟨hmem, ⟨ns, hnsF, hnsid⟩, ⟨nt, hntF, hntid⟩⟩
      refine List.mem_filter.mpr ⟨hmem, ?_⟩
      rw [Bool.and_eq_true]
      exact ⟨hnsid ▸ (List.mem_filter.mp hnsF).2, hntid ▸ (List.mem_filter.mp hntF).2⟩

/-- Witness for C8: the neighborhood characterization on a concrete
two-node, one-edge graph focused at "a". -/
theorem c8_neighborhood_witness :
    (⟨"a", "paper", "A", 0⟩ : KGNode) ∈
      (kgNeighborhood "a" [⟨"a", "paper", "A", 0⟩, ⟨"b", "entity", "B", 0⟩]
        [⟨"a", "b", "mentions", "a"⟩]).1 ∧
    (∀ n, n ∈ (kgNeighborhood "a" [⟨"a", "paper", "A", 0⟩, ⟨"b", "entity", "B", 0⟩]
        [⟨"a", "b", "mentions", "a"⟩]).1 ↔
      n ∈ [(⟨"a", "paper", "A", 0⟩ : KGNode), ⟨"b", "entity", "B", 0⟩] ∧
        (n.id = "a" ∨ ∃ e ∈ [(⟨"a", "b", "mentions", "a"⟩ : KGEdge)],
          (e.source = "a" ∧ e.target = n.id) ∨ (e.target = "a" ∧ e.source = n.id))) ∧
    (∀ e, e ∈ (kgNeighborhood "a" [⟨"a", "paper", "A", 0⟩, ⟨"b", "entity", "B", 0⟩]
        [⟨"a", "b", "mentions", "a"⟩]).2 ↔
      e ∈ [(⟨"a", "b", "mentions", "a"⟩ : KGEdge)] ∧
        (∃ n ∈ (kgNeighborhood "a" [⟨"a", "paper", "A", 0⟩, ⟨"b", "entity", "B", 0⟩]
          [⟨"a", "b", "mentions", "a"⟩]).1, n.id = e.source) ∧
        ∃ n ∈ (kgNeighborhood "a" [⟨"a", "paper", "A", 0⟩, ⟨"b", "entity", "B", 0⟩]
          [⟨"a", "b", "mentions", "a"⟩]).1, n.id = e.target) :=
  c8_neighborhood "a" [⟨"a", "paper", "A", 0⟩, ⟨"b", "entity", "B", 0⟩]
    [⟨"a", "b", "mentions", "a"⟩] ⟨"a", "paper", "A", 0⟩ (by decide) rfl (by decide)


/-! ## C9: build determinism -/

theorem bumpMentions_pres (eid : String) (P : KGNode → Prop)
    (hP : ∀ n, P n → P { n with mentions := n.mentions + 1 }) :
    ∀ (nodes : List KGNode), (∀ n ∈ nodes, P n) → ∀ n ∈ bumpMentions nodes eid, P n := by
  intro nodes
  induction nodes with
  | nil =>
    intro _ n hn
    simp [bumpMentions] at hn
  | cons m rest ih =>
    intro h n hn
    by_cases hm : m.id = eid
    · rw [bumpMentions, if_pos hm] at hn
      rcases List.mem_cons.mp hn with rfl | hn2
      · exact hP m (h m (List.mem_cons_self m rest))
      · exact h n (List.mem_cons_of_mem m hn2)
    · rw [bumpMentions, if_neg hm] at hn
      rcases List.mem_cons.mp hn with rfl | hn2
      · exact h n (List.mem_cons_self n rest)
      · exact ih (fun x hx => h x (List.mem_cons_of_mem m hx)) n hn2

theorem addEntity_coherent (d i e : String) (st : KGState)
    (h : ∀ n ∈ st.nodes, nodeIdCoherent n) :
    ∀ n ∈ (addEntity d i st e).nodes, nodeIdCoherent n := by
  intro n hn
  cases hc : st.entityKeys.contains e with
  | true =>
    simp only [addEntity, hc, if_true] at hn
    exact bumpMentions_pres _ nodeIdCoherent (fun x hx => hx) st.nodes h n hn
  | false =>
    simp only [addEntity, hc, Bool.false_eq_true, if_false] at hn
    rcases List.mem_append.mp hn with hn2 | hn2
    · exact h n hn2
    · rcases List.mem_singleton.mp hn2 with rfl
      exact ⟨fun ht => absurd ht (by simp), fun _ => rfl⟩

theorem entityFold_coherent (es : List String) (d i : String) (st : KGState)
    (h : ∀ n ∈ st.nodes, nodeIdCoherent n) :
    ∀ n ∈ (es.foldl (addEntity d i) st).nodes, nodeIdCoherent n := by
  induction es generalizing st with
  | nil => exact h
  | cons e rest ih => exact ih _ (addEntity_coherent d i e st h)

theorem pushDocNode_coherent (st : KGState) (it : Item)
    (h : ∀ n ∈ st.nodes, nodeIdCoherent n) :
    ∀ n ∈ (pushDocNode st it).nodes, nodeIdCoherent n := by
  intro n hn
  rcases List.mem_append.mp hn with hn2 | hn2
  · exact h n hn2
  · rcases List.mem_singleton.mp hn2 with rfl
    constructor
    · intro ht
      exfalso
      revert ht
      unfold docType
      split <;> simp
    · intro ht
      exfalso
      revert ht
      unfold docType
      split <;> simp

theorem pushMissionNode_coherent (st : KGState) (it : Item)
    (h : ∀ n ∈ st.nodes, nodeIdCoherent n) :
    ∀ n ∈ (pushMissionNode st it).nodes, nodeIdCoherent n := by
  intro n hn
  unfold pushMissionNode at hn
  split at hn
  · exact h n hn
  · rcases List.mem_append.mp hn with hn2 | hn2
    · exact h n hn2
    · rcases List.mem_singleton.mp hn2 with rfl
      exact ⟨fun _ => rfl, fun ht => absurd ht (by simp)⟩

theorem addItem_coherent (st : KGState) (it : Item)
    (h : ∀ n ∈ st.nodes, nodeIdCoherent n) :
    ∀ n ∈ (addItem st it).nodes, nodeIdCoherent n := by
  unfold addItem
  exact entityFold_coherent _ _ _ _
    (pushMissionNode_coherent (pushDocNode st it) it (pushDocNode_coherent st it h))

theorem buildFold_coherent (items : List Item) (st : KGState)
    (h : ∀ n ∈ st.nodes, nodeIdCoherent n) :
    ∀ n ∈ (items.foldl addItem st).nodes, nodeIdCoherent n := by
  induction items generalizing st with
  | nil => exact h
  | cons it rest ih => exact ih _ (addItem_coherent st it h)

/-- C9 counterexample: the server-side `/api/kg` build does NOT
produce the same edge set on two runs over the same one-document
corpus — the per-paper random draw decides whether 2 or 3 entity nodes
are mentioned, so the two runs differ (the node list is identical). -/
theorem c9_counterexample :
    serverKGNodes [mkItem "d1" "t" "sn" "M1" []] =
      serverKGNodes [mkItem "d1" "t" "sn" "M1" []] ∧
    serverKGEdges [mkItem "d1" "t" "sn" "M1" []] (fun _ => false) ≠
      serverKGEdges [mkItem "d1" "t" "sn" "M1" []] (fun _ => true) := by
  exact ⟨rfl, by decide⟩

/-- C9 (amended): the client-side graph build is fully deterministic —
two runs over the same corpus give identical nodes and edges — and
every mission or entity node id is the deterministic function
`type ++ "-" ++ slug(label)` of its type and normalized label.  The
server-side `/api/kg` mock keeps deterministic node identities and
counts, but its EDGE set depends on per-paper random draws and may
differ between runs. -/
theorem c9_build_determinism (items items2 : List Item) (h : items = items2) :
    buildKGFromItems items = buildKGFromItems items2 ∧
    serverKGNodes items = serverKGNodes items2 ∧
    ∀ n ∈ (buildKGFromItems items).nodes, nodeIdCoherent n := by
  subst h
  exact ⟨rfl, rfl, buildFold_coherent items ⟨[], [], [], []⟩ (by intro n hn; cases hn)⟩

/-- Witness for C9: determinism and id coherence on a concrete
one-document corpus. -/
theorem c9_build_determinism_witness :
    buildKGFromItems [mkItem "d1" "t" "sn" "M1" ["iss"]] =
      buildKGFromItems [mkItem "d1" "t" "sn" "M1" ["iss"]] ∧
    serverKGNodes [mkItem "d1" "t" "sn" "M1" ["iss"]] =
      serverKGNodes [mkItem "d1" "t" "sn" "M1" ["iss"]] ∧
    ∀ n ∈ (buildKGFromItems [mkItem "d1" "t" "sn" "M1" ["iss"]]).nodes, nodeIdCoherent n :=
  c9_build_determinism [mkItem "d1" "t" "sn" "M1" ["iss"]]
    [mkItem "d1" "t" "sn" "M1" ["iss"]] rfl


/-! ## C3: node and edge counts of the build -/

theorem bumpMentions_length (nodes : List KGNode) (eid : String) :
    (bumpMentions nodes eid).length = nodes.length := by
  induction nodes with
  | nil => rfl
  | cons m rest ih =>
    by_cases hm : m.id = eid
    · rw [bumpMentions, if_pos hm]
      simp
    · rw [bumpMentions, if_neg hm]
      simp [ih]

theorem addEntity_stats (d i e : String) (st : KGState) :
    (addEntity d i st e).nodes.length + st.entityKeys.length =
      st.nodes.length + (addEntity d i st e).entityKeys.length ∧
    (addEntity d i st e).entityKeys = insKey st.entityKeys e ∧
    (addEntity d i st e).edges.length = st.edges.length + 1 ∧
    (addEntity d i st e).missionKeys = st.missionKeys := by
  by_cases hc : e ∈ st.entityKeys <;>
    refine ⟨?_, ?_, ?_, ?_⟩ <;>
      simp [addEntity, hc, insKey, bumpMentions_length] <;> omega

theorem entityFold_stats (es : List String) (d i : String) (st : KGState) :
    (es.foldl (addEntity d i) st).nodes.length + st.entityKeys.length =
      st.nodes.length + (es.foldl (addEntity d i) st).entityKeys.length ∧
    (es.foldl (addEntity d i) st).entityKeys = es.foldl insKey st.entityKeys ∧
    (es.foldl (addEntity d i) st).edges.length = st.edges.length + es.length ∧
    (es.foldl (addEntity d i) st).missionKeys = st.missionKeys := by
  induction es generalizing st with
  | nil => simp
  | cons e rest ih =>
    simp only [List.foldl_cons, List.length_cons]
    obtain ⟨h1, h2, h3, h4⟩ := addEntity_stats d i e st
    obtain ⟨g1, g2, g3, g4⟩ := ih (addEntity d i st e)
    refine ⟨by omega, ?_, by omega, g4.trans h4⟩
    rw [g2, h2]

theorem pushDocNode_stats (st : KGState) (it : Item) :
    (pushDocNode st it).nodes.length = st.nodes.length + 1 := by
  simp [pushDocNode]

theorem pushMissionNode_stats (st : KGState) (it : Item) :
    (pushMissionNode st it).nodes.length + st.missionKeys.length =
      st.nodes.length + (pushMissionNode st it).missionKeys.length ∧
    (pushMissionNode st it).missionKeys = insKey st.missionKeys it.mission ∧
    (pushMissionNode st it).entityKeys = st.entityKeys ∧
    (pushMissionNode st it).edges = st.edges := by
  by_cases hm : it.mission ∈ st.missionKeys <;>
    refine ⟨?_, ?_, ?_, ?_⟩ <;>
      simp [pushMissionNode, hm, insKey] <;> omega

theorem addItem_stats (st : KGState) (it : Item) :
    (addItem st it).nodes.length + st.missionKeys.length + st.entityKeys.length =
      st.nodes.length + 1 + (addItem st it).missionKeys.length +
        (addItem st it).entityKeys.length ∧
    (addItem st it).missionKeys = insKey st.missionKeys it.mission ∧
    (addItem st it).entityKeys = it.entities.foldl insKey st.entityKeys ∧
    (addItem st it).edges.length = st.edges.length + 1 + it.entities.length := by
  unfold addItem
  obtain ⟨m1, m2, m3, m4⟩ := pushMissionNode_stats (pushDocNode st it) it
  obtain ⟨f1, f2, f3, f4⟩ := entityFold_stats it.entities (docNodeId it) it.id
    (pushMissionEdge (pushMissionNode (pushDocNode st it) it) it)
  have d1 := pushDocNode_stats st it
  have dmk : (pushDocNode st it).missionKeys = st.missionKeys := rfl
  have dek : (pushDocNode st it).entityKeys = st.entityKeys := rfl
  have dei : (pushDocNode st it).edges = st.edges := rfl
  have en : (pushMissionEdge (pushMissionNode (pushDocNode st it) it) it).nodes.length =
      (pushMissionNode (pushDocNode st it) it).nodes.length := rfl
  have ee : (pushMissionEdge (pushMissionNode (pushDocNode st it) it) it).edges.length =
      (pushMissionNode (pushDocNode st it) it).edges.length + 1 := by
    simp [pushMissionEdge]
  have ek : (pushMissionEdge (pushMissionNode (pushDocNode st it) it) it).entityKeys =
      (pushMissionNode (pushDocNode st it) it).entityKeys := rfl
  have emk : (pushMissionEdge (pushMissionNode (pushDocNode st it) it) it).missionKeys =
      (pushMissionNode (pushDocNode st it) it).missionKeys := rfl
  rw [dmk] at m2
  rw [dek] at m3
  rw [dei] at m4
  rw [m3] at ek
  rw [m2] at emk
  have f4l := congrArg List.length f4
  have emkl := congrArg List.length emk
  have ekl := congrArg List.length ek
  have m4l := congrArg List.length m4
  have eel := ee
  rw [m4l] at eel
  have dmkl : (pushDocNode st it).missionKeys.length = st.missionKeys.length := rfl
  have dekl : (pushDocNode st it).entityKeys.length = st.entityKeys.length := rfl
  refine ⟨?_, ?_, ?_, ?_⟩
  · have m2l := congrArg List.length m2
    omega
  · rw [f4, emk]
  · rw [f2, ek]
  · omega

theorem buildFold_stats (items : List Item) (st : KGState) :
    (items.foldl addItem st).nodes.length + st.missionKeys.length + st.entityKeys.length =
      st.nodes.length + items.length + (items.foldl addItem st).missionKeys.length +
        (items.foldl addItem st).entityKeys.length ∧
    (items.foldl addItem st).missionKeys =
      (items.map Item.mission).foldl insKey st.missionKeys ∧
    (items.foldl addItem st).entityKeys =
      (items.flatMap Item.entities).foldl insKey st.entityKeys ∧
    (items.foldl addItem st).edges.length =
      st.edges.length + items.length + (items.map (fun x => x.entities.length)).sum := by
  induction items generalizing st with
  | nil => simp
  | cons it rest ih =>
    simp only [List.foldl_cons, List.map_cons, List.flatMap_cons, List.length_cons,
      List.sum_cons, List.foldl_append]
    obtain ⟨a1, a2, a3, a4⟩ := addItem_stats st it
    obtain ⟨g1, g2, g3, g4⟩ := ih (addItem st it)
    exact ⟨by omega, by rw [g2, a2], by rw [g3, a3], by omega⟩

/-- C3 counterexample: entity nodes are deduplicated by the RAW entity
string, not by the normalized label, so the corpus
`[{entities: ["Bone Loss", "bone loss"]}]` produces 4 nodes (document,
mission, and TWO entity nodes that share the id "entity-bone-loss")
where the specification's count |D| + distinct missions + distinct
normalized entities predicts 3. -/
theorem c3_counterexample :
    (buildKGFromItems [mkItem "d1" "t" "sn" "M1" ["Bone Loss", "bone loss"]]).nodes.length = 4 ∧
    specNodeCount [mkItem "d1" "t" "sn" "M1" ["Bone Loss", "bone loss"]] = 3 ∧
    ((buildKGFromItems [mkItem "d1" "t" "sn" "M1" ["Bone Loss", "bone loss"]]).nodes.filter
      (fun n => n.id = "entity-bone-loss")).length = 2 := by
  exact ⟨by decide, by decide, by decide⟩

/-- C3 (amended): `build(D)` yields exactly
`|D| + (number of distinct RAW mission values) + (number of distinct
RAW entity labels)` nodes — deduplication is by the exact original
string, not by the case-folded whitespace-collapsed label the spec
describes — and exactly `|D| + Σ(entities per document)` edges (one
`part_of_mission` edge per document plus one `mentions` edge per
(document, entity) occurrence).  Display labels do retain the original
casing. -/
theorem c3_build_counts (D : List Item) :
    (buildKGFromItems D).nodes.length =
      D.length + (uniqueFirst (D.map Item.mission)).length +
        (uniqueFirst (D.flatMap Item.entities)).length ∧
    (buildKGFromItems D).edges.length =
      D.length + (D.map (fun it => it.entities.length)).sum := by
  obtain ⟨h1, h2, h3, h4⟩ := buildFold_stats D ⟨[], [], [], []⟩
  have h2l := congrArg List.length h2
  have h3l := congrArg List.length h3
  simp only [List.length_nil] at h1 h2l h3l h4
  unfold buildKGFromItems uniqueFirst
  constructor
  · rw [← h2, ← h3]
    omega
  · omega


/-! ## C4: mention counters versus mentions in-degree -/

theorem mentionsSum_cons (x : KGNode) (l : List KGNode) (nid : String) :
    mentionsSum (x :: l) nid =
      (if x.id = nid then x.mentions else 0) + mentionsSum l nid := by
  by_cases hx : x.id = nid <;> simp [mentionsSum, List.filter_cons, hx]

theorem mentionsSum_append (a b : List KGNode) (nid : String) :
    mentionsSum (a ++ b) nid = mentionsSum a nid + mentionsSum b nid := by
  simp [mentionsSum, List.filter_append]

theorem mentionsSum_singleton (x : KGNode) (nid : String) :
    mentionsSum [x] nid = if x.id = nid then x.mentions else 0 := by
  rw [mentionsSum_cons]
  simp [mentionsSum]

theorem mentionsInDegree_cons (e : KGEdge) (l : List KGEdge) (nid : String) :
    mentionsInDegree (e :: l) nid =
      (if e.relation = "mentions" ∧ e.target = nid then 1 else 0) +
        mentionsInDegree l nid := by
  by_cases h1 : e.relation = "mentions" <;> by_cases h2 : e.target = nid <;>
    simp [mentionsInDegree, List.filter_cons, h1, h2] <;> omega

theorem mentionsInDegree_append (a b : List KGEdge) (nid : String) :
    mentionsInDegree (a ++ b) nid = mentionsInDegree a nid + mentionsInDegree b nid := by
  simp [mentionsInDegree, List.filter_append]

theorem mentionsInDegree_singleton (e : KGEdge) (nid : String) :
    mentionsInDegree [e] nid =
      if e.relation = "mentions" ∧ e.target = nid then 1 else 0 := by
  rw [mentionsInDegree_cons]
  simp [mentionsInDegree]

theorem bumpMentions_ids (nodes : List KGNode) (eid : String) :
    (bumpMentions nodes eid).map KGNode.id = nodes.map KGNode.id := by
  induction nodes with
  | nil => rfl
  | cons m rest ih =>
    by_cases hm : m.id = eid
    · rw [bumpMentions, if_pos hm]
      simp
    · rw [bumpMentions, if_neg hm]
      simp [ih]

theorem bumpMentions_sum (nodes : List KGNode) (eid nid : String) :
    mentionsSum (bumpMentions nodes eid) nid =
      mentionsSum nodes nid +
        (if nid = eid ∧ eid ∈ nodes.map KGNode.id then 1 else 0) := by
  induction nodes with
  | nil => simp [bumpMentions, mentionsSum]
  | cons m rest ih =>
    by_cases hm : m.id = eid
    · rw [bumpMentions, if_pos hm, mentionsSum_cons, mentionsSum_cons]
      by_cases hn : nid = eid
      · rw [if_pos (show m.id = nid by rw [hm, hn]),
          if_pos (show m.id = nid by rw [hm, hn]),
          if_pos ⟨hn, by simp [← hm]⟩]
        dsimp only
        omega
      · rw [if_neg (show ¬ m.id = nid from fun hcon => hn (by rw [← hcon, hm])),
          if_neg (show ¬ m.id = nid from fun hcon => hn (by rw [← hcon, hm])),
          if_neg (fun hcon => hn hcon.1)]
        simp
    · rw [bumpMentions, if_neg hm, mentionsSum_cons, mentionsSum_cons, ih]
      have hiff : (nid = eid ∧ eid ∈ (m :: rest).map KGNode.id) ↔
          (nid = eid ∧ eid ∈ rest.map KGNode.id) := by
        simp only [List.map_cons, List.mem_cons]
        constructor
        · rintro ⟨h1, h2 | h2⟩
          · exact absurd h2.symm hm
          · exact ⟨h1, h2⟩
        · rintro ⟨h1, h2⟩
          exact ⟨h1, Or.inr h2⟩
      rw [if_congr hiff rfl rfl]
      omega

theorem addEntity_eq_pos (d i e : String) (st : KGState) (hc : e ∈ st.entityKeys) :
    addEntity d i st e =
      { nodes := bumpMentions st.nodes ("entity-" ++ slug e)
        edges := st.edges ++ [⟨d, "entity-" ++ slug e, "mentions", i⟩]
        entityKeys := st.entityKeys
        missionKeys := st.missionKeys } := by
  simp [addEntity, hc]

theorem addEntity_eq_neg (d i e : String) (st : KGState) (hc : ¬ e ∈ st.entityKeys) :
    addEntity d i st e =
      { nodes := st.nodes ++ [⟨"entity-" ++ slug e, "entity", e, 1⟩]
        edges := st.edges ++ [⟨d, "entity-" ++ slug e, "mentions", i⟩]
        entityKeys := st.entityKeys ++ [e]
        missionKeys := st.missionKeys } := by
  simp [addEntity, hc]

theorem addEntity_inv (d i e : String) (st : KGState)
    (hK : entityKeysCovered st) (hJ : mentionsBalanced st) :
    entityKeysCovered (addEntity d i st e) ∧ mentionsBalanced (addEntity d i st e) := by
  by_cases hc : e ∈ st.entityKeys
  · rw [addEntity_eq_pos d i e st hc]
    constructor
    · intro k hk
      show _ ∈ (bumpMentions st.nodes ("entity-" ++ slug e)).map KGNode.id
      rw [bumpMentions_ids]
      exact hK k hk
    · intro nid
      show mentionsSum (bumpMentions st.nodes ("entity-" ++ slug e)) nid = _
      rw [bumpMentions_sum, hJ nid, mentionsInDegree_append, mentionsInDegree_singleton]
      by_cases hn : nid = "entity-" ++ slug e
      · rw [if_pos ⟨hn, hK e hc⟩, if_pos ⟨rfl, hn.symm⟩]
      · rw [if_neg (fun hcon => hn hcon.1), if_neg (fun hcon => hn hcon.2.symm)]
  · rw [addEntity_eq_neg d i e st hc]
    constructor
    · intro k hk
      show _ ∈ (st.nodes ++ [(⟨"entity-" ++ slug e, "entity", e, 1⟩ : KGNode)]).map KGNode.id
      rw [List.map_append]
      rcases List.mem_append.mp hk with hk2 | hk2
      · exact List.mem_append_left _ (hK k hk2)
      · rcases List.mem_singleton.mp hk2 with rfl
        exact List.mem_append_right _ (by simp)
    · intro nid
      show mentionsSum (st.nodes ++ [(⟨"entity-" ++ slug e, "entity", e, 1⟩ : KGNode)]) nid = _
      rw [mentionsSum_append, mentionsSum_singleton, hJ nid,
        mentionsInDegree_append, mentionsInDegree_singleton]
      by_cases hn : ("entity-" ++ slug e) = nid
      · rw [if_pos hn, if_pos ⟨rfl, hn⟩]
      · rw [if_neg hn, if_neg (fun hcon => hn hcon.2)]

theorem entityFold_inv (es : List String) (d i : String) (st : KGState)
    (hK : entityKeysCovered st) (hJ : mentionsBalanced st) :
    entityKeysCovered (es.foldl (addEntity d i) st) ∧
      mentionsBalanced (es.foldl (addEntity d i) st) := by
  induction es generalizing st with
  | nil => exact ⟨hK, hJ⟩
  | cons e rest ih =>
    obtain ⟨hK2, hJ2⟩ := addEntity_inv d i e st hK hJ
    exact ih (addEntity d i st e) hK2 hJ2

theorem pushDocNode_inv (st : KGState) (it : Item)
    (hK : entityKeysCovered st) (hJ : mentionsBalanced st) :
    entityKeysCovered (pushDocNode st it) ∧ mentionsBalanced (pushDocNode st it) := by
  constructor
  · intro k hk
    show _ ∈ (st.nodes ++ [(⟨docNodeId it, docType it, it.title, 0⟩ : KGNode)]).map KGNode.id
    rw [List.map_append]
    exact List.mem_append_left _ (hK k hk)
  · intro nid
    show mentionsSum (st.nodes ++ [(⟨docNodeId it, docType it, it.title, 0⟩ : KGNode)]) nid =
      mentionsInDegree st.edges nid
    rw [mentionsSum_append, mentionsSum_singleton, hJ nid]
    split <;> simp

theorem pushMissionNode_inv (st : KGState) (it : Item)
    (hK : entityKeysCovered st) (hJ : mentionsBalanced st) :
    entityKeysCovered (pushMissionNode st it) ∧ mentionsBalanced (pushMissionNode st it) := by
  unfold pushMissionNode
  split
  · exact ⟨hK, hJ⟩
  · constructor
    · intro k hk
      show _ ∈ (st.nodes ++
        [(⟨"mission-" ++ slug it.mission, "mission", it.mission, 0⟩ : KGNode)]).map KGNode.id
      rw [List.map_append]
      exact List.mem_append_left _ (hK k hk)
    · intro nid
      show mentionsSum (st.nodes ++
          [(⟨"mission-" ++ slug it.mission, "mission", it.mission, 0⟩ : KGNode)]) nid =
        mentionsInDegree st.edges nid
      rw [mentionsSum_append, mentionsSum_singleton, hJ nid]
      split <;> simp

theorem pushMissionEdge_inv (st : KGState) (it : Item)
    (hK : entityKeysCovered st) (hJ : mentionsBalanced st) :
    entityKeysCovered (pushMissionEdge st it) ∧ mentionsBalanced (pushMissionEdge st it) := by
  constructor
  · exact hK
  · intro nid
    show mentionsSum st.nodes nid = mentionsInDegree (st.edges ++
      [(⟨docNodeId it, "mission-" ++ slug it.mission, "part_of_mission",
        it.id⟩ : KGEdge)]) nid
    rw [mentionsInDegree_append, mentionsInDegree_singleton, hJ nid]
    rw [if_neg (fun hcon => by simpa using hcon.1)]
    omega

theorem addItem_inv (st : KGState) (it : Item)
    (hK : entityKeysCovered st) (hJ : mentionsBalanced st) :
    entityKeysCovered (addItem st it) ∧ mentionsBalanced (addItem st it) := by
  unfold addItem
  obtain ⟨k1, j1⟩ := pushDocNode_inv st it hK hJ
  obtain ⟨k2, j2⟩ := pushMissionNode_inv (pushDocNode st it) it k1 j1
  obtain ⟨k3, j3⟩ := pushMissionEdge_inv (pushMissionNode (pushDocNode st it) it) it k2 j2
  exact entityFold_inv it.entities (docNodeId it) it.id _ k3 j3

theorem buildFold_inv (items : List Item) (st : KGState)
    (hK : entityKeysCovered st) (hJ : mentionsBalanced st) :
    entityKeysCovered (items.foldl addItem st) ∧
      mentionsBalanced (items.foldl addItem st) := by
  induction items generalizing st with
  | nil => exact ⟨hK, hJ⟩
  | cons it rest ih =>
    obtain ⟨hK2, hJ2⟩ := addItem_inv st it hK hJ
    exact ih (addItem st it) hK2 hJ2

/-- C4 counterexample: with entity list `["ISS", "iss", "ISS"]` the
build produces two nodes sharing id "entity-iss" — one with counter 2
(the first, bumped by the third occurrence) and one with counter 1 —
while three `mentions` edges target that id, so neither node's counter
equals the in-degree of its id. -/
theorem c4_counterexample :
    ¬ (∀ n ∈ (buildKGFromItems [mkItem "d1" "t" "sn" "M1" ["ISS", "iss", "ISS"]]).nodes,
        n.type = "entity" →
          n.mentions = mentionsInDegree
            (buildKGFromItems [mkItem "d1" "t" "sn" "M1" ["ISS", "iss", "ISS"]]).edges
            n.id) := by
  decide

/-- C4 (amended): for every node id, the SUM of the mention counters of
the nodes carrying that id equals the in-degree of `mentions` edges
targeting it.  When no two distinct raw entity labels share a
normalized id — the typical corpus — each entity id is carried by a
single node and this is the claimed per-node equality. -/
theorem c4_mentions_indegree (D : List Item) (nid : String) :
    mentionsSum (buildKGFromItems D).nodes nid =
      mentionsInDegree (buildKGFromItems D).edges nid := by
  have h := buildFold_inv D ⟨[], [], [], []⟩
    (by intro k hk; cases hk) (by intro nid2; rfl)
  exact h.2 nid

end SpaceBio
